import Mathlib

/-!
Shallow embedding of the mini-ledger service
(src/mini-ledger/app/services/ledger.py, with the sibling SQL-backed variant
src/mini_ledger/app/services/ledger.py behaving identically at this level).

Modelling choices:
* UUIDs (uuid4) are modelled by a fresh-id counter threaded through the state.
* datetime.utcnow() is modelled by a logical clock that ticks at every record
  creation, so timestamps are strictly increasing in creation order.
* Python dicts become association lists with first-occurrence lookup and
  in-place replacing update, matching dict lookup/assignment semantics.
* Raised exceptions become an Except error value; every service method raises
  before mutating, so an error leaves the caller state untouched, which the
  embedding reflects by returning the new state only on success.
* Python list slicing (including a negative stop index) and the crashing
  slice_entries[-1] access on an empty list are modelled explicitly.
-/

namespace MiniLedger

/-- Account identifiers: uuid4 values, modelled as freshly allocated naturals. -/
abbrev AccountId := Nat

/-- Timestamps: datetime.utcnow values, modelled by a logical clock. -/
abbrev Timestamp := Nat

/-- Mirror of the dataclass _AccountRecord in app/services/ledger.py. -/
structure AccountRecord where
  id : AccountId
  owner_name : String
  created_at : Timestamp
  balance : Int
deriving Repr, DecidableEq

/-- Mirror of the dataclass _LedgerEntryRecord: type is the string
CREDIT or DEBIT, ref the optional memo. -/
structure LedgerEntryRecord where
  id : Nat
  ts : Timestamp
  account_id : AccountId
  amount : Int
  type : String
  ref : Option String
deriving Repr, DecidableEq

/-- Mirror of the pydantic AccountResponse projection (app/models/schemas.py). -/
structure AccountResponse where
  id : AccountId
  owner_name : String
  created_at : Timestamp
  balance : Int
deriving Repr, DecidableEq

/-- Mirror of the pydantic LedgerEntryResponse projection. -/
structure LedgerEntryResponse where
  id : Nat
  ts : Timestamp
  account_id : AccountId
  amount : Int
  type : String
  ref : Option String
deriving Repr, DecidableEq

/-- Mirror of the pydantic MoneyMovementRequest (amount, optional memo). -/
structure MoneyMovementRequest where
  amount : Int
  memo : Option String
deriving Repr, DecidableEq

/-- Mirror of the pydantic TransferRequest. -/
structure TransferRequest where
  source_account_id : AccountId
  dest_account_id : AccountId
  amount : Int
  memo : Option String
deriving Repr, DecidableEq

/-- Mirror of the pydantic StatementResponse; next_cursor carries the
timestamp whose isoformat string the code would return. -/
structure StatementResponse where
  items : List LedgerEntryResponse
  next_cursor : Option Timestamp
deriving Repr, DecidableEq

/-- Request signatures: the Python request_signature tuples.  A
deposit/withdraw tuple has four components, a transfer tuple five, so the two
shapes are distinct constructors (distinct tuples never compare equal). -/
inductive Signature where
  | move (route : String) (account : AccountId) (amount : Int) (memo : Option String)
  | xfer (route : String) (source : AccountId) (dest : AccountId) (amount : Int)
      (memo : Option String)
deriving Repr, DecidableEq

/-- Stored response payloads: deposit/withdraw store an AccountResponse,
transfer stores a source/dest dict of two AccountResponses. -/
inductive Payload where
  | acct (r : AccountResponse)
  | pair (source : AccountResponse) (dest : AccountResponse)
deriving Repr, DecidableEq

/-- Mirror of the dataclass _IdempotencyRecord. -/
structure IdempotencyRecord where
  request_signature : Signature
  response_payload : Payload
deriving Repr, DecidableEq

/-- Lookup in an association list: first binding of the key, as in a Python
dict read. -/
def alookup {κ α : Type} [DecidableEq κ] (l : List (κ × α)) (k : κ) : Option α :=
  match l with
  | [] => none
  | (k0, v0) :: t => if k0 = k then some v0 else alookup t k

/-- Update in an association list: replace the first binding in place, or
append a new binding, as in a Python dict assignment. -/
def aupd {κ α : Type} [DecidableEq κ] (l : List (κ × α)) (k : κ) (v : α) :
    List (κ × α) :=
  match l with
  | [] => [(k, v)]
  | (k0, v0) :: t => if k0 = k then (k, v) :: t else (k0, v0) :: aupd t k v

/-- State of a LedgerService instance: the three dicts plus the fresh-id
counter and the logical clock standing in for uuid4 and utcnow. -/
structure LedgerState where
  accounts : List (AccountId × AccountRecord)
  entries : List (AccountId × List LedgerEntryRecord)
  idempotency : List ((String × String) × IdempotencyRecord)
  nextId : Nat
  clock : Timestamp
deriving Repr, DecidableEq

/-- State of a freshly constructed LedgerService. -/
def initialState : LedgerState :=
  { accounts := [], entries := [], idempotency := [], nextId := 0, clock := 0 }

/-- Entry list of an account, defaulting to the empty list. -/
def entriesOf (s : LedgerState) (account_id : AccountId) : List LedgerEntryRecord :=
  (alookup s.entries account_id).getD []

/-- Error taxonomy raised by the service layer.  invalidArgument models the
ValueError raises; indexError models the uncaught IndexError that
get_statement hits when slice_entries is empty. -/
inductive LedgerError where
  | notFound
  | insufficientFunds
  | duplicateIdempotencyKey
  | invalidArgument
  | indexError
deriving Repr, DecidableEq

/-- Decidable equality on Except results, so that concrete runs can be
checked by evaluation. -/
instance exceptDecEq {ε α : Type} [DecidableEq ε] [DecidableEq α] :
    DecidableEq (Except ε α) := fun x y =>
  match x, y with
  | .ok a, .ok b => if h : a = b then isTrue (by rw [h]) else isFalse (by simp [h])
  | .error a, .error b => if h : a = b then isTrue (by rw [h]) else isFalse (by simp [h])
  | .ok _, .error _ => isFalse (by simp)
  | .error _, .ok _ => isFalse (by simp)

/-- Mirror of LedgerService._check_idempotency: miss returns none, a
fingerprint mismatch raises DuplicateIdempotencyKeyError, a match returns the
cached payload. -/
def _check_idempotency (s : LedgerState) (route : String) (idempotency_key : String)
    (request_signature : Signature) : Except LedgerError (Option Payload) :=
  match alookup s.idempotency (route, idempotency_key) with
  | none => .ok none
  | some record =>
    if record.request_signature = request_signature then
      .ok (some record.response_payload)
    else
      .error .duplicateIdempotencyKey

/-- Mirror of LedgerService._record_idempotent. -/
def _record_idempotent (s : LedgerState) (route : String) (idempotency_key : String)
    (request_signature : Signature) (response_payload : Payload) : LedgerState :=
  { s with
      idempotency :=
        aupd s.idempotency (route, idempotency_key)
          { request_signature := request_signature, response_payload := response_payload } }

/-- Mirror of LedgerService._append_entry: allocates a fresh entry id and
timestamp and appends to the account entry list. -/
def _append_entry (s : LedgerState) (account_id : AccountId) (amount : Int)
    (entry_type : String) (ref : Option String) : LedgerEntryRecord × LedgerState :=
  let entry : LedgerEntryRecord :=
    { id := s.nextId, ts := s.clock, account_id := account_id,
      amount := amount, type := entry_type, ref := ref }
  (entry,
    { s with
        entries := aupd s.entries account_id (entriesOf s account_id ++ [entry]),
        nextId := s.nextId + 1,
        clock := s.clock + 1 })

/-- Projection of a stored account record to its response shape, as built
inline by each service method. -/
def accountToResponse (a : AccountRecord) : AccountResponse :=
  { id := a.id, owner_name := a.owner_name, created_at := a.created_at,
    balance := a.balance }

/-- Mirror of LedgerService.create_account. -/
def create_account (s : LedgerState) (owner_name : String) :
    AccountResponse × LedgerState :=
  let account_id := s.nextId
  let now := s.clock
  let record : AccountRecord :=
    { id := account_id, owner_name := owner_name, created_at := now, balance := 0 }
  (accountToResponse record,
    { s with
        accounts := aupd s.accounts account_id record,
        entries := aupd s.entries account_id [],
        nextId := account_id + 1,
        clock := now + 1 })

/-- Mirror of LedgerService.deposit.  The cached branch returns only when the
payload is an AccountResponse (the isinstance check); otherwise the method
body runs. -/
def deposit (s : LedgerState) (account_id : AccountId) (payload : MoneyMovementRequest)
    (idempotency_key : String) : Except LedgerError (AccountResponse × LedgerState) :=
  let request_signature := Signature.move "deposit" account_id payload.amount payload.memo
  match _check_idempotency s "deposit" idempotency_key request_signature with
  | .error e => .error e
  | .ok (some (.acct cached)) => .ok (cached, s)
  | .ok _ =>
    match alookup s.accounts account_id with
    | none => .error .notFound
    | some account0 =>
      let account := { account0 with balance := account0.balance + payload.amount }
      let s1 := { s with accounts := aupd s.accounts account_id account }
      let s2 := (_append_entry s1 account_id payload.amount "CREDIT" payload.memo).2
      let response := accountToResponse account
      let s3 := _record_idempotent s2 "deposit" idempotency_key request_signature
        (.acct response)
      .ok (response, s3)

/-- Mirror of LedgerService.withdraw. -/
def withdraw (s : LedgerState) (account_id : AccountId) (payload : MoneyMovementRequest)
    (idempotency_key : String) : Except LedgerError (AccountResponse × LedgerState) :=
  let request_signature := Signature.move "withdraw" account_id payload.amount payload.memo
  match _check_idempotency s "withdraw" idempotency_key request_signature with
  | .error e => .error e
  | .ok (some (.acct cached)) => .ok (cached, s)
  | .ok _ =>
    match alookup s.accounts account_id with
    | none => .error .notFound
    | some account0 =>
      if account0.balance < payload.amount then .error .insufficientFunds
      else
        let account := { account0 with balance := account0.balance - payload.amount }
        let s1 := { s with accounts := aupd s.accounts account_id account }
        let s2 := (_append_entry s1 account_id (payload.amount * -1) "DEBIT" payload.memo).2
        let response := accountToResponse account
        let s3 := _record_idempotent s2 "withdraw" idempotency_key request_signature
          (.acct response)
        .ok (response, s3)

/-- Mirror of LedgerService.transfer.  On a cache hit whose payload is the
source/dest pair the pair is replayed; a cached payload of any other shape
raises DuplicateIdempotencyKeyError (the dict-shape guard); the self-transfer
ValueError fires only after the idempotency lookup. -/
def transfer (s : LedgerState) (payload : TransferRequest) (idempotency_key : String) :
    Except LedgerError ((AccountResponse × AccountResponse) × LedgerState) :=
  let request_signature := Signature.xfer "transfer" payload.source_account_id
    payload.dest_account_id payload.amount payload.memo
  match _check_idempotency s "transfer" idempotency_key request_signature with
  | .error e => .error e
  | .ok (some (.pair source_cached dest_cached)) => .ok ((source_cached, dest_cached), s)
  | .ok (some (.acct _)) => .error .duplicateIdempotencyKey
  | .ok none =>
    if payload.source_account_id = payload.dest_account_id then .error .invalidArgument
    else
      match alookup s.accounts payload.source_account_id with
      | none => .error .notFound
      | some source0 =>
        match alookup s.accounts payload.dest_account_id with
        | none => .error .notFound
        | some dest0 =>
          if source0.balance < payload.amount then .error .insufficientFunds
          else
            let source := { source0 with balance := source0.balance - payload.amount }
            let dest := { dest0 with balance := dest0.balance + payload.amount }
            let s1 := { s with
              accounts :=
                aupd (aupd s.accounts payload.source_account_id source)
                  payload.dest_account_id dest }
            let s2 := (_append_entry s1 payload.source_account_id
              (payload.amount * -1) "DEBIT" payload.memo).2
            let s3 := (_append_entry s2 payload.dest_account_id
              payload.amount "CREDIT" payload.memo).2
            let source_response := accountToResponse source
            let dest_response := accountToResponse dest
            let s4 := _record_idempotent s3 "transfer" idempotency_key request_signature
              (.pair source_response dest_response)
            .ok ((source_response, dest_response), s4)

/-- Projection of a stored ledger entry to its response shape, as built by
the list comprehension in get_statement. -/
def entryToResponse (e : LedgerEntryRecord) : LedgerEntryResponse :=
  { id := e.id, ts := e.ts, account_id := e.account_id, amount := e.amount,
    type := e.type, ref := e.ref }

/-- Stable insertion of an entry into a list already sorted by descending
timestamp: the entry goes before the first element whose timestamp is not
strictly greater, which keeps earlier-inserted elements of equal timestamp in
front. -/
def insertTsDesc (e : LedgerEntryRecord) : List LedgerEntryRecord → List LedgerEntryRecord
  | [] => [e]
  | b :: t => if e.ts < b.ts then b :: insertTsDesc e t else e :: b :: t

/-- Mirror of sorted(entries, key ts, reverse True): a stable sort by
descending timestamp. -/
def sortTsDesc : List LedgerEntryRecord → List LedgerEntryRecord
  | [] => []
  | a :: t => insertTsDesc a (sortTsDesc t)

/-- Stop index of a Python slice l[a : b] for a nonnegative start: a negative
stop counts from the end, clamped at 0; a nonnegative stop is clamped at the
length. -/
def pyStop (len : Nat) (b : Int) : Nat :=
  if b < 0 then ((len : Int) + b).toNat else min b.toNat len

/-- Python slice l[a : b] with a nonnegative start index a. -/
def pySlice {α : Type} (l : List α) (a : Nat) (b : Int) : List α :=
  (l.take (pyStop l.length b)).drop a

/-- Cursor argument of get_statement as the service sees it: absent (or the
falsy empty string), present but not parseable by datetime.fromisoformat, or
parsed to a timestamp. -/
inductive Cursor where
  | none
  | invalid
  | ts (t : Timestamp)
deriving Repr, DecidableEq

/-- Index of the first entry whose timestamp equals t, mirroring the
enumerate loop of get_statement that breaks at the first isoformat match. -/
def firstTsIndex (t : Timestamp) : List LedgerEntryRecord → Option Nat
  | [] => none
  | e :: rest => if e.ts = t then some 0 else (firstTsIndex t rest).map (· + 1)

/-- Start index computed by the cursor loop of get_statement: the position
just after the first entry whose timestamp equals the cursor, or 0 if the
cursor matches nothing; an unparseable cursor raises ValueError. -/
def cursorStartIndex (entries_sorted : List LedgerEntryRecord) :
    Cursor → Except LedgerError Nat
  | .none => .ok 0
  | .invalid => .error .invalidArgument
  | .ts t =>
    match firstTsIndex t entries_sorted with
    | some idx => .ok (idx + 1)
    | none => .ok 0

/-- Mirror of LedgerService.get_statement.  The limit stays a Python int (the
route layer does not constrain it); the final slice_entries[-1] access is an
uncaught IndexError when the slice is empty, modelled as the indexError
outcome. -/
def get_statement (s : LedgerState) (account_id : AccountId) (limit : Int)
    (cursor : Cursor) : Except LedgerError StatementResponse :=
  match alookup s.accounts account_id with
  | none => .error .notFound
  | some _ =>
    let entries_sorted := sortTsDesc (entriesOf s account_id)
    match cursorStartIndex entries_sorted cursor with
    | .error e => .error e
    | .ok start_index =>
      let slice_entries := pySlice entries_sorted start_index ((start_index : Int) + limit)
      let items := slice_entries.map entryToResponse
      if (start_index : Int) + limit < (entries_sorted.length : Int) then
        match slice_entries.getLast? with
        | Option.none => .error .indexError
        | Option.some last => .ok { items := items, next_cursor := some last.ts }
      else
        .ok { items := items, next_cursor := Option.none }

/-- Mirror of LedgerService.get_account. -/
def get_account (s : LedgerState) (account_id : AccountId) :
    Except LedgerError AccountResponse :=
  match alookup s.accounts account_id with
  | none => .error .notFound
  | some account => .ok (accountToResponse account)

/-- One service call together with its arguments. -/
inductive Op where
  | createAccount (owner_name : String)
  | depositOp (account_id : AccountId) (payload : MoneyMovementRequest) (key : String)
  | withdrawOp (account_id : AccountId) (payload : MoneyMovementRequest) (key : String)
  | transferOp (payload : TransferRequest) (key : String)
deriving Repr, DecidableEq

/-- Validation the pydantic schemas perform before the service runs: owner
names are nonempty (min_length 1) and movement amounts are at least 1
(ge 1). -/
def validOp : Op → Prop
  | .createAccount owner_name => owner_name ≠ ""
  | .depositOp _ payload _ => 1 ≤ payload.amount
  | .withdrawOp _ payload _ => 1 ≤ payload.amount
  | .transferOp payload _ => 1 ≤ payload.amount

instance (op : Op) : Decidable (validOp op) := by
  cases op <;> simp only [validOp] <;> infer_instance

/-- State reached after a call: the new state on success, the unchanged state
when the service raised (every raise happens before any mutation). -/
def applyOp (s : LedgerState) : Op → LedgerState
  | .createAccount owner_name => (create_account s owner_name).2
  | .depositOp account_id payload key =>
    match deposit s account_id payload key with
    | .ok (_, s1) => s1
    | .error _ => s
  | .withdrawOp account_id payload key =>
    match withdraw s account_id payload key with
    | .ok (_, s1) => s1
    | .error _ => s
  | .transferOp payload key =>
    match transfer s payload key with
    | .ok (_, s1) => s1
    | .error _ => s

/-- States reachable from a fresh service by schema-valid calls. -/
inductive Reachable : LedgerState → Prop
  | init : Reachable initialState
  | step {s : LedgerState} (op : Op) : Reachable s → validOp op → Reachable (applyOp s op)

/-- Sum of the signed amounts of a list of entries. -/
def entrySum (l : List LedgerEntryRecord) : Int :=
  (l.map (fun e => e.amount)).sum

/-! Basic lemmas about the association-list operations and helpers. -/

theorem alookup_aupd_self {κ α : Type} [DecidableEq κ] (l : List (κ × α)) (k : κ) (v : α) :
    alookup (aupd l k v) k = some v := by
  induction l with
  | nil => simp [aupd, alookup]
  | cons hd t ih =>
    obtain ⟨k0, v0⟩ := hd
    by_cases h : k0 = k
    · simp [aupd, h, alookup]
    · simp [aupd, h, alookup, ih]

theorem alookup_aupd_ne {κ α : Type} [DecidableEq κ] (l : List (κ × α)) (k k1 : κ) (v : α)
    (h : k1 ≠ k) : alookup (aupd l k v) k1 = alookup l k1 := by
  have hk : k ≠ k1 := fun hh => h hh.symm
  induction l with
  | nil =>
    simp only [aupd, alookup]
    rw [if_neg hk]
  | cons hd t ih =>
    obtain ⟨k0, v0⟩ := hd
    simp only [aupd]
    by_cases h0 : k0 = k
    · rw [if_pos h0]
      simp only [alookup]
      rw [if_neg hk, if_neg (h0 ▸ hk)]
    · rw [if_neg h0]
      simp only [alookup]
      by_cases h1 : k0 = k1
      · rw [if_pos h1, if_pos h1]
      · rw [if_neg h1, if_neg h1, ih]

theorem entrySum_append (l : List LedgerEntryRecord) (e : LedgerEntryRecord) :
    entrySum (l ++ [e]) = entrySum l + e.amount := by
  simp [entrySum]

theorem firstTsIndex_lt_length {t : Timestamp} {l : List LedgerEntryRecord} {i : Nat}
    (h : firstTsIndex t l = some i) : i < l.length := by
  induction l generalizing i with
  | nil => simp [firstTsIndex] at h
  | cons e rest ih =>
    simp only [firstTsIndex] at h
    by_cases he : e.ts = t
    · rw [if_pos he] at h
      obtain rfl := Option.some.inj h
      simp
    · rw [if_neg he] at h
      cases hf : firstTsIndex t rest with
      | none => rw [hf] at h; simp at h
      | some j =>
        rw [hf] at h
        simp only [Option.map_some'] at h
        obtain rfl := Option.some.inj h
        have := ih hf
        simp only [List.length_cons]
        omega

theorem cursorStartIndex_le {l : List LedgerEntryRecord} {c : Cursor} {start : Nat}
    (h : cursorStartIndex l c = .ok start) : start ≤ l.length := by
  cases c with
  | none =>
    simp [cursorStartIndex] at h
    omega
  | invalid => simp [cursorStartIndex] at h
  | ts t =>
    simp only [cursorStartIndex] at h
    cases hf : firstTsIndex t l with
    | none => simp [hf] at h; omega
    | some i =>
      simp [hf] at h
      have := firstTsIndex_lt_length hf
      omega

theorem insertTsDesc_mem {e x : LedgerEntryRecord} {l : List LedgerEntryRecord}
    (h : x ∈ insertTsDesc e l) : x = e ∨ x ∈ l := by
  induction l with
  | nil => simpa [insertTsDesc] using h
  | cons b t ih =>
    by_cases hb : e.ts < b.ts
    · simp only [insertTsDesc, if_pos hb, List.mem_cons] at h
      rcases h with h | h
      · right; simp [h]
      · rcases ih h with h1 | h1
        · left; exact h1
        · right; simp [h1]
    · simp only [insertTsDesc, if_neg hb, List.mem_cons] at h
      rcases h with h | h | h
      · left; exact h
      · right; simp [h]
      · right; simp [h]

theorem insertTsDesc_pairwise {e : LedgerEntryRecord} {l : List LedgerEntryRecord}
    (h : l.Pairwise (fun x y => y.ts ≤ x.ts)) :
    (insertTsDesc e l).Pairwise (fun x y => y.ts ≤ x.ts) := by
  induction l with
  | nil => simp [insertTsDesc]
  | cons b t ih =>
    rcases List.pairwise_cons.mp h with ⟨hb, ht⟩
    by_cases hlt : e.ts < b.ts
    · simp only [insertTsDesc, if_pos hlt]
      refine List.pairwise_cons.mpr ⟨?_, ih ht⟩
      intro x hx
      rcases insertTsDesc_mem hx with rfl | hx1
      · exact Nat.le_of_lt hlt
      · exact hb x hx1
    · simp only [insertTsDesc, if_neg hlt]
      refine List.pairwise_cons.mpr ⟨?_, h⟩
      intro x hx
      rcases List.mem_cons.mp hx with rfl | hx1
      · exact Nat.le_of_not_lt hlt
      · exact Nat.le_trans (hb x hx1) (Nat.le_of_not_lt hlt)

theorem sortTsDesc_pairwise (l : List LedgerEntryRecord) :
    (sortTsDesc l).Pairwise (fun x y => y.ts ≤ x.ts) := by
  induction l with
  | nil => simp [sortTsDesc]
  | cons a t ih => exact insertTsDesc_pairwise ih

/-! Characterization lemmas for the outcomes of each operation. -/

theorem deposit_ok_elim {s : LedgerState} {a : AccountId} {p : MoneyMovementRequest}
    {k : String} {r : AccountResponse} {s1 : LedgerState}
    (h : deposit s a p k = .ok (r, s1)) :
    (∃ rec, alookup s.idempotency ("deposit", k) = some rec ∧
        rec.request_signature = Signature.move "deposit" a p.amount p.memo ∧
        rec.response_payload = .acct r ∧ s1 = s)
    ∨ (∃ acc, alookup s.accounts a = some acc ∧
        r = accountToResponse { acc with balance := acc.balance + p.amount } ∧
        s1 = { accounts := aupd s.accounts a { acc with balance := acc.balance + p.amount },
               entries := aupd s.entries a (entriesOf s a ++
                 [{ id := s.nextId, ts := s.clock, account_id := a,
                    amount := p.amount, type := "CREDIT", ref := p.memo }]),
               idempotency := aupd s.idempotency ("deposit", k)
                 { request_signature := Signature.move "deposit" a p.amount p.memo,
                   response_payload := .acct r },
               nextId := s.nextId + 1, clock := s.clock + 1 }) := by
  simp only [deposit, _check_idempotency] at h
  split at h
  · simp at h
  · rename_i cached heq
    simp only [Except.ok.injEq, Prod.mk.injEq] at h
    obtain ⟨hr, hs⟩ := h
    left
    split at heq
    · simp at heq
    · rename_i rec hi
      split at heq
      · rename_i hsig
        simp only [Except.ok.injEq, Option.some.injEq] at heq
        exact ⟨rec, hi, hsig, by rw [heq, hr], hs.symm⟩
      · simp at heq
  · rename_i opt hnotacct heq
    split at h
    · simp at h
    · rename_i acc ha
      simp only [Except.ok.injEq, Prod.mk.injEq] at h
      obtain ⟨hr, hs⟩ := h
      right
      refine ⟨acc, ha, hr.symm, ?_⟩
      rw [← hs]
      dsimp only [_record_idempotent, _append_entry, entriesOf]
      rw [hr]

theorem check_idem_none {s : LedgerState} {route key : String} (sig : Signature)
    (h : alookup s.idempotency (route, key) = none) :
    _check_idempotency s route key sig = .ok none := by
  simp [_check_idempotency, h]

theorem check_idem_hit {s : LedgerState} {route key : String} {rec : IdempotencyRecord}
    {sig : Signature} (h : alookup s.idempotency (route, key) = some rec)
    (hsig : rec.request_signature = sig) :
    _check_idempotency s route key sig = .ok (some rec.response_payload) := by
  simp [_check_idempotency, h, hsig]

theorem check_idem_mismatch {s : LedgerState} {route key : String} {rec : IdempotencyRecord}
    {sig : Signature} (h : alookup s.idempotency (route, key) = some rec)
    (hsig : rec.request_signature ≠ sig) :
    _check_idempotency s route key sig = .error .duplicateIdempotencyKey := by
  simp [_check_idempotency, h, hsig]

theorem deposit_cached {s : LedgerState} {a : AccountId} {p : MoneyMovementRequest}
    {k : String} {rec : IdempotencyRecord} {r : AccountResponse}
    (hi : alookup s.idempotency ("deposit", k) = some rec)
    (hsig : rec.request_signature = Signature.move "deposit" a p.amount p.memo)
    (hpl : rec.response_payload = .acct r) :
    deposit s a p k = .ok (r, s) := by
  simp [deposit, check_idem_hit hi hsig, hpl]

theorem withdraw_cached {s : LedgerState} {a : AccountId} {p : MoneyMovementRequest}
    {k : String} {rec : IdempotencyRecord} {r : AccountResponse}
    (hi : alookup s.idempotency ("withdraw", k) = some rec)
    (hsig : rec.request_signature = Signature.move "withdraw" a p.amount p.memo)
    (hpl : rec.response_payload = .acct r) :
    withdraw s a p k = .ok (r, s) := by
  simp [withdraw, check_idem_hit hi hsig, hpl]

theorem transfer_cached {s : LedgerState} {p : TransferRequest} {k : String}
    {rec : IdempotencyRecord} {sr dr : AccountResponse}
    (hi : alookup s.idempotency ("transfer", k) = some rec)
    (hsig : rec.request_signature = Signature.xfer "transfer" p.source_account_id
      p.dest_account_id p.amount p.memo)
    (hpl : rec.response_payload = .pair sr dr) :
    transfer s p k = .ok ((sr, dr), s) := by
  simp [transfer, check_idem_hit hi hsig, hpl]

theorem deposit_conflict {s : LedgerState} {a : AccountId} {p : MoneyMovementRequest}
    {k : String} {rec : IdempotencyRecord}
    (hi : alookup s.idempotency ("deposit", k) = some rec)
    (hsig : rec.request_signature ≠ Signature.move "deposit" a p.amount p.memo) :
    deposit s a p k = .error .duplicateIdempotencyKey := by
  simp [deposit, check_idem_mismatch hi hsig]

theorem withdraw_conflict {s : LedgerState} {a : AccountId} {p : MoneyMovementRequest}
    {k : String} {rec : IdempotencyRecord}
    (hi : alookup s.idempotency ("withdraw", k) = some rec)
    (hsig : rec.request_signature ≠ Signature.move "withdraw" a p.amount p.memo) :
    withdraw s a p k = .error .duplicateIdempotencyKey := by
  simp [withdraw, check_idem_mismatch hi hsig]

theorem transfer_conflict {s : LedgerState} {p : TransferRequest} {k : String}
    {rec : IdempotencyRecord}
    (hi : alookup s.idempotency ("transfer", k) = some rec)
    (hsig : rec.request_signature ≠ Signature.xfer "transfer" p.source_account_id
      p.dest_account_id p.amount p.memo) :
    transfer s p k = .error .duplicateIdempotencyKey := by
  simp [transfer, check_idem_mismatch hi hsig]

theorem withdraw_insufficient {s : LedgerState} {a : AccountId} {p : MoneyMovementRequest}
    {k : String} {acc : AccountRecord}
    (hi : alookup s.idempotency ("withdraw", k) = none)
    (ha : alookup s.accounts a = some acc)
    (hlt : acc.balance < p.amount) :
    withdraw s a p k = .error .insufficientFunds := by
  simp [withdraw, check_idem_none _ hi, ha, hlt]

theorem transfer_self_invalid {s : LedgerState} {p : TransferRequest} {k : String}
    (hi : alookup s.idempotency ("transfer", k) = none)
    (hself : p.source_account_id = p.dest_account_id) :
    transfer s p k = .error .invalidArgument := by
  simp [transfer, check_idem_none _ hi, hself]

theorem transfer_insufficient {s : LedgerState} {p : TransferRequest} {k : String}
    {src dst : AccountRecord}
    (hi : alookup s.idempotency ("transfer", k) = none)
    (hne : p.source_account_id ≠ p.dest_account_id)
    (hsrc : alookup s.accounts p.source_account_id = some src)
    (hdst : alookup s.accounts p.dest_account_id = some dst)
    (hlt : src.balance < p.amount) :
    transfer s p k = .error .insufficientFunds := by
  simp [transfer, check_idem_none _ hi, hne, hsrc, hdst, hlt]

theorem withdraw_ok_elim {s : LedgerState} {a : AccountId} {p : MoneyMovementRequest}
    {k : String} {r : AccountResponse} {s1 : LedgerState}
    (h : withdraw s a p k = .ok (r, s1)) :
    (∃ rec, alookup s.idempotency ("withdraw", k) = some rec ∧
        rec.request_signature = Signature.move "withdraw" a p.amount p.memo ∧
        rec.response_payload = .acct r ∧ s1 = s)
    ∨ (∃ acc, alookup s.accounts a = some acc ∧
        ¬ acc.balance < p.amount ∧
        r = accountToResponse { acc with balance := acc.balance - p.amount } ∧
        s1 = { accounts := aupd s.accounts a { acc with balance := acc.balance - p.amount },
               entries := aupd s.entries a (entriesOf s a ++
                 [{ id := s.nextId, ts := s.clock, account_id := a,
                    amount := p.amount * -1, type := "DEBIT", ref := p.memo }]),
               idempotency := aupd s.idempotency ("withdraw", k)
                 { request_signature := Signature.move "withdraw" a p.amount p.memo,
                   response_payload := .acct r },
               nextId := s.nextId + 1, clock := s.clock + 1 }) := by
  simp only [withdraw, _check_idempotency] at h
  split at h
  · simp at h
  · rename_i cached heq
    simp only [Except.ok.injEq, Prod.mk.injEq] at h
    obtain ⟨hr, hs⟩ := h
    left
    split at heq
    · simp at heq
    · rename_i rec hi
      split at heq
      · rename_i hsig
        simp only [Except.ok.injEq, Option.some.injEq] at heq
        exact ⟨rec, hi, hsig, by rw [heq, hr], hs.symm⟩
      · simp at heq
  · rename_i opt hnotacct heq
    split at h
    · simp at h
    · rename_i acc ha
      split at h
      · simp at h
      · rename_i hbal
        simp only [Except.ok.injEq, Prod.mk.injEq] at h
        obtain ⟨hr, hs⟩ := h
        right
        refine ⟨acc, ha, hbal, hr.symm, ?_⟩
        rw [← hs]
        dsimp only [_record_idempotent, _append_entry, entriesOf]
        rw [hr]

theorem transfer_ok_elim {s : LedgerState} {p : TransferRequest} {k : String}
    {sr dr : AccountResponse} {s1 : LedgerState}
    (h : transfer s p k = .ok ((sr, dr), s1)) :
    (∃ rec, alookup s.idempotency ("transfer", k) = some rec ∧
        rec.request_signature = Signature.xfer "transfer" p.source_account_id
          p.dest_account_id p.amount p.memo ∧
        rec.response_payload = .pair sr dr ∧ s1 = s)
    ∨ (p.source_account_id ≠ p.dest_account_id ∧
       ∃ src dst, alookup s.accounts p.source_account_id = some src ∧
        alookup s.accounts p.dest_account_id = some dst ∧
        ¬ src.balance < p.amount ∧
        sr = accountToResponse { src with balance := src.balance - p.amount } ∧
        dr = accountToResponse { dst with balance := dst.balance + p.amount } ∧
        s1 = { accounts := aupd (aupd s.accounts p.source_account_id
                 { src with balance := src.balance - p.amount }) p.dest_account_id
                 { dst with balance := dst.balance + p.amount },
               entries := aupd (aupd s.entries p.source_account_id
                 (entriesOf s p.source_account_id ++
                   [{ id := s.nextId, ts := s.clock, account_id := p.source_account_id,
                      amount := p.amount * -1, type := "DEBIT", ref := p.memo }]))
                 p.dest_account_id
                 (entriesOf s p.dest_account_id ++
                   [{ id := s.nextId + 1, ts := s.clock + 1,
                      account_id := p.dest_account_id,
                      amount := p.amount, type := "CREDIT", ref := p.memo }]),
               idempotency := aupd s.idempotency ("transfer", k)
                 { request_signature := Signature.xfer "transfer" p.source_account_id
                     p.dest_account_id p.amount p.memo,
                   response_payload := .pair sr dr },
               nextId := s.nextId + 1 + 1, clock := s.clock + 1 + 1 }) := by
  simp only [transfer, _check_idempotency] at h
  split at h
  · simp at h
  · rename_i sc dc heq
    simp only [Except.ok.injEq, Prod.mk.injEq] at h
    obtain ⟨⟨hsr, hdr⟩, hs⟩ := h
    left
    split at heq
    · simp at heq
    · rename_i rec hi
      split at heq
      · rename_i hsig
        simp only [Except.ok.injEq, Option.some.injEq] at heq
        exact ⟨rec, hi, hsig, by rw [heq, hsr, hdr], hs.symm⟩
      · simp at heq
  · simp at h
  · rename_i heq
    split at h
    · simp at h
    · rename_i hne
      split at h
      · simp at h
      · rename_i src hsrc
        split at h
        · simp at h
        · rename_i dst hdst
          split at h
          · simp at h
          · rename_i hbal
            simp only [Except.ok.injEq, Prod.mk.injEq] at h
            obtain ⟨⟨hsr, hdr⟩, hs⟩ := h
            right
            refine ⟨hne, src, dst, hsrc, hdst, hbal, hsr.symm, hdr.symm, ?_⟩
            rw [← hs]
            dsimp only [_record_idempotent, _append_entry, entriesOf]
            rw [hsr, hdr]
            have hne2 : p.dest_account_id ≠ p.source_account_id := fun hh => hne hh.symm
            rw [alookup_aupd_ne s.entries p.source_account_id p.dest_account_id _ hne2]

/-! Invariant over reachable states: balances are the sums of entry amounts
and never negative. -/

/-- Invariant maintained by every reachable state: each stored account has a
nonnegative balance equal to the sum of its entry amounts. -/
def BalInv (s : LedgerState) : Prop :=
  ∀ a rec, alookup s.accounts a = some rec →
    0 ≤ rec.balance ∧ rec.balance = entrySum (entriesOf s a)

theorem balInv_init : BalInv initialState := by
  intro a rec h
  simp [initialState, alookup] at h

theorem balInv_step {s : LedgerState} (op : Op) (hv : validOp op) (hinv : BalInv s) :
    BalInv (applyOp s op) := by
  cases op with
  | createAccount owner_name =>
    intro a rec h
    dsimp only [applyOp, create_account] at h ⊢
    by_cases hk : a = s.nextId
    · subst hk
      rw [alookup_aupd_self] at h
      obtain rfl := Option.some.inj h
      refine ⟨le_refl 0, ?_⟩
      simp [entriesOf, alookup_aupd_self, entrySum]
    · have hk2 : a ≠ s.nextId := hk
      rw [alookup_aupd_ne _ _ _ _ hk2] at h
      rcases hinv a rec h with ⟨h1, h2⟩
      refine ⟨h1, ?_⟩
      rw [h2]
      simp only [entriesOf]
      rw [alookup_aupd_ne _ _ _ _ hk2]
  | depositOp a0 p key =>
    have hv1 : (1 : Int) ≤ p.amount := hv
    cases hd : deposit s a0 p key with
    | error e => simpa only [applyOp, hd] using hinv
    | ok rs =>
      obtain ⟨r, s1⟩ := rs
      have hstep : applyOp s (.depositOp a0 p key) = s1 := by
        simp [applyOp, hd]
      rw [hstep]
      rcases deposit_ok_elim hd with ⟨rec0, _, _, _, rfl⟩ | ⟨acc, ha, hr, rfl⟩
      · exact hinv
      · intro a rec h
        simp only at h ⊢
        by_cases hk : a = a0
        · subst hk
          rw [alookup_aupd_self] at h
          obtain rfl := Option.some.inj h
          rcases hinv a acc ha with ⟨hb, hsum⟩
          simp only [entriesOf] at hsum
          constructor
          · simp only
            omega
          · simp only [entriesOf, alookup_aupd_self, Option.getD_some]
            rw [entrySum_append]
            simp only
            omega
        · rw [alookup_aupd_ne _ _ _ _ hk] at h
          rcases hinv a rec h with ⟨h1, h2⟩
          refine ⟨h1, ?_⟩
          rw [h2]
          simp only [entriesOf]
          rw [alookup_aupd_ne _ _ _ _ hk]
  | withdrawOp a0 p key =>
    have hv1 : (1 : Int) ≤ p.amount := hv
    cases hd : withdraw s a0 p key with
    | error e => simpa only [applyOp, hd] using hinv
    | ok rs =>
      obtain ⟨r, s1⟩ := rs
      have hstep : applyOp s (.withdrawOp a0 p key) = s1 := by
        simp [applyOp, hd]
      rw [hstep]
      rcases withdraw_ok_elim hd with ⟨rec0, _, _, _, rfl⟩ | ⟨acc, ha, hbal, hr, rfl⟩
      · exact hinv
      · intro a rec h
        simp only at h ⊢
        by_cases hk : a = a0
        · subst hk
          rw [alookup_aupd_self] at h
          obtain rfl := Option.some.inj h
          rcases hinv a acc ha with ⟨hb, hsum⟩
          simp only [entriesOf] at hsum
          constructor
          · simp only
            omega
          · simp only [entriesOf, alookup_aupd_self, Option.getD_some]
            rw [entrySum_append]
            simp only
            omega
        · rw [alookup_aupd_ne _ _ _ _ hk] at h
          rcases hinv a rec h with ⟨h1, h2⟩
          refine ⟨h1, ?_⟩
          rw [h2]
          simp only [entriesOf]
          rw [alookup_aupd_ne _ _ _ _ hk]
  | transferOp p key =>
    have hv1 : (1 : Int) ≤ p.amount := hv
    cases hd : transfer s p key with
    | error e => simpa only [applyOp, hd] using hinv
    | ok rs =>
      obtain ⟨rp, s1⟩ := rs
      obtain ⟨sr, dr⟩ := rp
      have hstep : applyOp s (.transferOp p key) = s1 := by
        simp [applyOp, hd]
      rw [hstep]
      rcases transfer_ok_elim hd with ⟨rec0, _, _, _, rfl⟩ |
        ⟨hne, src, dst, hsrc, hdst, hbal, hsr, hdr, rfl⟩
      · exact hinv
      · intro a rec h
        simp only at h ⊢
        by_cases hkd : a = p.dest_account_id
        · subst hkd
          rw [alookup_aupd_self] at h
          obtain rfl := Option.some.inj h
          rcases hinv _ dst hdst with ⟨hb, hsum⟩
          simp only [entriesOf] at hsum
          constructor
          · simp only
            omega
          · simp only [entriesOf, alookup_aupd_self, Option.getD_some]
            rw [entrySum_append]
            simp only
            omega
        · rw [alookup_aupd_ne _ _ _ _ hkd] at h
          simp only [entriesOf] at h ⊢
          rw [alookup_aupd_ne _ _ _ _ hkd]
          by_cases hks : a = p.source_account_id
          · subst hks
            rw [alookup_aupd_self] at h
            obtain rfl := Option.some.inj h
            rcases hinv _ src hsrc with ⟨hb, hsum⟩
            simp only [entriesOf] at hsum
            constructor
            · simp only
              omega
            · rw [alookup_aupd_self, Option.getD_some, entrySum_append]
              simp only
              omega
          · rw [alookup_aupd_ne _ _ _ _ hks] at h
            rcases hinv a rec h with ⟨h1, h2⟩
            refine ⟨h1, ?_⟩
            rw [h2]
            rw [alookup_aupd_ne _ _ _ _ hks]
            rfl

theorem reachable_balInv {s : LedgerState} (h : Reachable s) : BalInv s := by
  induction h with
  | init => exact balInv_init
  | step op _ hv ih => exact balInv_step op hv ih

/-! Lemmas about statement pagination. -/

theorem pySlice_nonneg_eq {α : Type} (l : List α) (a : Nat) (limit : Int)
    (h : 0 ≤ limit) :
    pySlice l a ((a : Int) + limit) = (l.drop a).take limit.toNat := by
  unfold pySlice pyStop
  rw [if_neg (by omega)]
  rw [List.drop_take]
  apply List.take_eq_take.mpr
  simp only [List.length_drop]
  omega

theorem get_statement_ok {s : LedgerState} {a : AccountId} {acc : AccountRecord}
    {limit : Int} {cursor : Cursor} {start : Nat}
    (hacc : alookup s.accounts a = some acc)
    (hstart : cursorStartIndex (sortTsDesc (entriesOf s a)) cursor = .ok start)
    (hlim : 1 ≤ limit) :
    ∃ resp, get_statement s a limit cursor = .ok resp ∧
      resp.items = (((sortTsDesc (entriesOf s a)).drop start).take limit.toNat).map
        entryToResponse ∧
      (resp.items.length : Int) ≤ limit ∧
      ((start : Int) + (resp.items.length : Int) <
          ((sortTsDesc (entriesOf s a)).length : Int) →
        ∃ last, resp.items.getLast? = some last ∧ resp.next_cursor = some last.ts) ∧
      (((sortTsDesc (entriesOf s a)).length : Int) ≤
          (start : Int) + (resp.items.length : Int) →
        resp.next_cursor = Option.none) := by
  have hstartle := cursorStartIndex_le hstart
  have hslice := pySlice_nonneg_eq (sortTsDesc (entriesOf s a)) start limit (by omega)
  have hlen : (pySlice (sortTsDesc (entriesOf s a)) start ((start : Int) + limit)).length
      = min limit.toNat ((sortTsDesc (entriesOf s a)).length - start) := by
    rw [hslice, List.length_take, List.length_drop]
  simp only [get_statement]
  rw [hacc, hstart]
  simp only
  by_cases hcond : (start : Int) + limit < ((sortTsDesc (entriesOf s a)).length : Int)
  · rw [if_pos hcond]
    have hne : pySlice (sortTsDesc (entriesOf s a)) start ((start : Int) + limit) ≠ [] := by
      intro hnil
      rw [hnil] at hlen
      simp only [List.length_nil] at hlen
      omega
    obtain ⟨last, hlast⟩ := Option.isSome_iff_exists.mp (List.getLast?_isSome.mpr hne)
    rw [hlast]
    refine ⟨_, rfl, ?_, ?_, ?_, ?_⟩
    · rw [hslice]
    · simp only [List.length_map]
      omega
    · intro _
      refine ⟨entryToResponse last, ?_, rfl⟩
      rw [List.getLast?_map, hlast]
      rfl
    · intro hge
      simp only [List.length_map] at hge
      omega
  · rw [if_neg hcond]
    refine ⟨_, rfl, ?_, ?_, ?_, ?_⟩
    · rw [hslice]
    · simp only [List.length_map]
      omega
    · intro hlt
      simp only [List.length_map] at hlt
      omega
    · intro _
      rfl

/-! Helper lemmas tying operation outcomes to applyOp, and the error kinds a
deposit can produce. -/

theorem applyOp_deposit_error {s : LedgerState} {a : AccountId} {p : MoneyMovementRequest}
    {k : String} {e : LedgerError} (h : deposit s a p k = .error e) :
    applyOp s (.depositOp a p k) = s := by
  simp [applyOp, h]

theorem applyOp_withdraw_error {s : LedgerState} {a : AccountId} {p : MoneyMovementRequest}
    {k : String} {e : LedgerError} (h : withdraw s a p k = .error e) :
    applyOp s (.withdrawOp a p k) = s := by
  simp [applyOp, h]

theorem applyOp_transfer_error {s : LedgerState} {p : TransferRequest}
    {k : String} {e : LedgerError} (h : transfer s p k = .error e) :
    applyOp s (.transferOp p k) = s := by
  simp [applyOp, h]

theorem deposit_error_elim {s : LedgerState} {a : AccountId} {p : MoneyMovementRequest}
    {k : String} {e : LedgerError} (h : deposit s a p k = .error e) :
    e = .notFound ∨ e = .duplicateIdempotencyKey := by
  simp only [deposit, _check_idempotency] at h
  split at h
  · rename_i e2 heq
    split at heq
    · simp at heq
    · rename_i rec hi
      split at heq
      · simp at heq
      · simp only [Except.error.injEq] at heq h
        right
        rw [← h, ← heq]
  · simp at h
  · split at h
    · simp only [Except.error.injEq] at h
      left
      rw [← h]
    · simp at h

/-! Concrete example runs used to exhibit witnesses and counterexamples. -/

/-- Account 0 owned by alice, freshly created. -/
def exA : LedgerState := applyOp initialState (.createAccount "alice")

/-- Deposit of 100 on account 0 under key d1. -/
def exB : LedgerState := applyOp exA (.depositOp 0 ⟨100, none⟩ "d1")

/-- Deposit of 200 on account 0 under key d2. -/
def exC : LedgerState := applyOp exB (.depositOp 0 ⟨200, none⟩ "d2")

/-- Deposit of 300 on account 0 under key d3; account 0 now holds 600 with
three CREDIT entries at timestamps 1, 2 and 3. -/
def exD : LedgerState := applyOp exC (.depositOp 0 ⟨300, none⟩ "d3")

/-- Two accounts: 0 (alice) and 1 (bob). -/
def exT0 : LedgerState :=
  applyOp (applyOp initialState (.createAccount "alice")) (.createAccount "bob")

/-- Deposit of 100 on account 0 under key k1. -/
def exT1 : LedgerState := applyOp exT0 (.depositOp 0 ⟨100, none⟩ "k1")

/-- Transfer of 30 from account 0 to account 1 under key t1; balances are now
70 and 30 and the key t1 is recorded. -/
def exT2 : LedgerState := applyOp exT1 (.transferOp ⟨0, 1, 30, some "rent"⟩ "t1")

theorem reachable_exD : Reachable exD :=
  ((((Reachable.init.step (.createAccount "alice") (by decide)).step
    (.depositOp 0 ⟨100, none⟩ "d1") (by decide)).step
    (.depositOp 0 ⟨200, none⟩ "d2") (by decide)).step
    (.depositOp 0 ⟨300, none⟩ "d3") (by decide))

theorem reachable_exT2 : Reachable exT2 :=
  ((((Reachable.init.step (.createAccount "alice") (by decide)).step
    (.createAccount "bob") (by decide)).step
    (.depositOp 0 ⟨100, none⟩ "k1") (by decide)).step
    (.transferOp ⟨0, 1, 30, some "rent"⟩ "t1") (by decide))

/-! Claim theorems. -/

/-- C1: in every state reachable by createAccount/deposit/withdraw/transfer
from the empty ledger every stored balance is nonnegative, and a withdraw or
transfer call whose amount exceeds the (source) balance — when its key does
not replay a stored idempotency record, the case governed by C2 — fails with
InsufficientFunds and leaves the state unchanged. -/
theorem claim1_nonneg_and_rejection :
    (∀ s, Reachable s → ∀ a rec, alookup s.accounts a = some rec → 0 ≤ rec.balance)
    ∧ (∀ s (a : AccountId) (p : MoneyMovementRequest) (k : String) rec,
        alookup s.idempotency ("withdraw", k) = none →
        alookup s.accounts a = some rec → rec.balance < p.amount →
        withdraw s a p k = .error .insufficientFunds ∧ applyOp s (.withdrawOp a p k) = s)
    ∧ (∀ s (p : TransferRequest) (k : String) src dst,
        alookup s.idempotency ("transfer", k) = none →
        p.source_account_id ≠ p.dest_account_id →
        alookup s.accounts p.source_account_id = some src →
        alookup s.accounts p.dest_account_id = some dst →
        src.balance < p.amount →
        transfer s p k = .error .insufficientFunds ∧ applyOp s (.transferOp p k) = s) := by
  refine ⟨?_, ?_, ?_⟩
  · intro s hs a rec h
    exact (reachable_balInv hs a rec h).1
  · intro s a p k rec hfresh hacc hlt
    have he := withdraw_insufficient hfresh hacc hlt
    exact ⟨he, applyOp_withdraw_error he⟩
  · intro s p k src dst hfresh hne hsrc hdst hlt
    have he := transfer_insufficient hfresh hne hsrc hdst hlt
    exact ⟨he, applyOp_transfer_error he⟩

/-- Witness for C1 at concrete reachable states. -/
theorem claim1_witness :
    (0 : Int) ≤ 600
    ∧ withdraw exT2 1 ⟨999, none⟩ "w9" = .error .insufficientFunds
    ∧ transfer exT2 ⟨1, 0, 999, none⟩ "t9" = .error .insufficientFunds := by
  refine ⟨?_, ?_, ?_⟩
  · exact claim1_nonneg_and_rejection.1 exD reachable_exD 0 ⟨0, "alice", 0, 600⟩ (by decide)
  · exact (claim1_nonneg_and_rejection.2.1 exT2 1 ⟨999, none⟩ "w9" ⟨1, "bob", 1, 30⟩
      (by decide) (by decide) (by decide)).1
  · exact (claim1_nonneg_and_rejection.2.2 exT2 ⟨1, 0, 999, none⟩ "t9"
      ⟨1, "bob", 1, 30⟩ ⟨0, "alice", 0, 70⟩
      (by decide) (by decide) (by decide) (by decide) (by decide)).1

/-- C2: a successful deposit, withdraw or transfer, repeated with the same
key and identical parameters, returns the identical response and leaves the
state (balances, entries, idempotency records) untouched. -/
theorem claim2_idempotent_replay :
    (∀ s (a : AccountId) (p : MoneyMovementRequest) (k : String) r s1,
        deposit s a p k = .ok (r, s1) → deposit s1 a p k = .ok (r, s1))
    ∧ (∀ s (a : AccountId) (p : MoneyMovementRequest) (k : String) r s1,
        withdraw s a p k = .ok (r, s1) → withdraw s1 a p k = .ok (r, s1))
    ∧ (∀ s (p : TransferRequest) (k : String) sr dr s1,
        transfer s p k = .ok ((sr, dr), s1) → transfer s1 p k = .ok ((sr, dr), s1)) := by
  refine ⟨?_, ?_, ?_⟩
  · intro s a p k r s1 h
    rcases deposit_ok_elim h with ⟨rec, hi, hsig, hpl, rfl⟩ | ⟨acc, ha, hr, rfl⟩
    · exact deposit_cached hi hsig hpl
    · exact deposit_cached (alookup_aupd_self _ _ _) rfl rfl
  · intro s a p k r s1 h
    rcases withdraw_ok_elim h with ⟨rec, hi, hsig, hpl, rfl⟩ | ⟨acc, ha, hbal, hr, rfl⟩
    · exact withdraw_cached hi hsig hpl
    · exact withdraw_cached (alookup_aupd_self _ _ _) rfl rfl
  · intro s p k sr dr s1 h
    rcases transfer_ok_elim h with ⟨rec, hi, hsig, hpl, rfl⟩ |
      ⟨hne, src, dst, hsrc, hdst, hbal, hsr, hdr, rfl⟩
    · exact transfer_cached hi hsig hpl
    · exact transfer_cached (alookup_aupd_self _ _ _) rfl rfl

/-- Witness for C2: replaying the first deposit of the example run. -/
theorem claim2_witness :
    deposit exB 0 ⟨100, none⟩ "d1" = .ok (⟨0, "alice", 0, 100⟩, exB) :=
  claim2_idempotent_replay.1 exA 0 ⟨100, none⟩ "d1" ⟨0, "alice", 0, 100⟩ exB (by decide)

/-- C4: reusing an idempotency key of any mutating operation with a different
request fingerprint fails with DuplicateIdempotencyKey and mutates nothing. -/
theorem claim4_fingerprint_conflict :
    (∀ s (a : AccountId) (p : MoneyMovementRequest) (k : String) rec,
        alookup s.idempotency ("deposit", k) = some rec →
        rec.request_signature ≠ Signature.move "deposit" a p.amount p.memo →
        deposit s a p k = .error .duplicateIdempotencyKey
          ∧ applyOp s (.depositOp a p k) = s)
    ∧ (∀ s (a : AccountId) (p : MoneyMovementRequest) (k : String) rec,
        alookup s.idempotency ("withdraw", k) = some rec →
        rec.request_signature ≠ Signature.move "withdraw" a p.amount p.memo →
        withdraw s a p k = .error .duplicateIdempotencyKey
          ∧ applyOp s (.withdrawOp a p k) = s)
    ∧ (∀ s (p : TransferRequest) (k : String) rec,
        alookup s.idempotency ("transfer", k) = some rec →
        rec.request_signature ≠ Signature.xfer "transfer" p.source_account_id
          p.dest_account_id p.amount p.memo →
        transfer s p k = .error .duplicateIdempotencyKey
          ∧ applyOp s (.transferOp p k) = s) := by
  refine ⟨?_, ?_, ?_⟩
  · intro s a p k rec hi hsig
    have he := deposit_conflict hi hsig
    exact ⟨he, applyOp_deposit_error he⟩
  · intro s a p k rec hi hsig
    have he := withdraw_conflict hi hsig
    exact ⟨he, applyOp_withdraw_error he⟩
  · intro s p k rec hi hsig
    have he := transfer_conflict hi hsig
    exact ⟨he, applyOp_transfer_error he⟩

/-- Witness for C4: key d1 reused with a different amount. -/
theorem claim4_witness :
    deposit exB 0 ⟨999, none⟩ "d1" = .error .duplicateIdempotencyKey
    ∧ applyOp exB (.depositOp 0 ⟨999, none⟩ "d1") = exB :=
  claim4_fingerprint_conflict.1 exB 0 ⟨999, none⟩ "d1"
    ⟨.move "deposit" 0 100 none, .acct ⟨0, "alice", 0, 100⟩⟩ (by decide) (by decide)

/-- C5: a withdraw on an existing account with balance below the amount and a
fresh idempotency key fails with InsufficientFunds, changes nothing, and
records nothing under (withdraw, key). -/
theorem claim5_withdraw_insufficient_no_record (s : LedgerState) (a : AccountId)
    (p : MoneyMovementRequest) (k : String) (rec : AccountRecord)
    (hfresh : alookup s.idempotency ("withdraw", k) = none)
    (hacc : alookup s.accounts a = some rec)
    (hlt : rec.balance < p.amount) :
    withdraw s a p k = .error .insufficientFunds
    ∧ applyOp s (.withdrawOp a p k) = s
    ∧ alookup (applyOp s (.withdrawOp a p k)).idempotency ("withdraw", k) = none := by
  have he := withdraw_insufficient hfresh hacc hlt
  have hst := applyOp_withdraw_error he
  refine ⟨he, hst, ?_⟩
  rw [hst]
  exact hfresh

/-- Witness for C5: overdrawing account 1 (balance 30) by 999. -/
theorem claim5_witness :
    withdraw exT2 1 ⟨999, none⟩ "w5" = .error .insufficientFunds
    ∧ applyOp exT2 (.withdrawOp 1 ⟨999, none⟩ "w5") = exT2
    ∧ alookup (applyOp exT2 (.withdrawOp 1 ⟨999, none⟩ "w5")).idempotency
        ("withdraw", "w5") = none :=
  claim5_withdraw_insufficient_no_record exT2 1 ⟨999, none⟩ "w5" ⟨1, "bob", 1, 30⟩
    (by decide) (by decide) (by decide)

/-- C6 counterexample: in the reachable state exT2 the key t1 is already
recorded for a different transfer, so a self-transfer under t1 fails with
DuplicateIdempotencyKey, not InvalidArgument as the claim states for every
state and every key. -/
theorem claim6_counterexample :
    Reachable exT2
    ∧ transfer exT2 ⟨0, 0, 30, some "rent"⟩ "t1" = .error .duplicateIdempotencyKey
    ∧ transfer exT2 ⟨0, 0, 30, some "rent"⟩ "t1" ≠ .error .invalidArgument :=
  ⟨reachable_exT2, by decide, by decide⟩

/-- C6 as amended: a self-transfer whose idempotency key has no stored record
for the transfer route fails with InvalidArgument, mutates nothing, and
records nothing, so it re-validates and re-fails on every repetition. -/
theorem claim6_self_transfer_rejected (s : LedgerState) (p : TransferRequest) (k : String)
    (hfresh : alookup s.idempotency ("transfer", k) = none)
    (hself : p.source_account_id = p.dest_account_id) :
    transfer s p k = .error .invalidArgument
    ∧ applyOp s (.transferOp p k) = s
    ∧ alookup (applyOp s (.transferOp p k)).idempotency ("transfer", k) = none := by
  have he := transfer_self_invalid hfresh hself
  have hst := applyOp_transfer_error he
  refine ⟨he, hst, ?_⟩
  rw [hst]
  exact hfresh

/-- Witness for the amended C6. -/
theorem claim6_witness :
    transfer exD ⟨0, 0, 5, none⟩ "t6" = .error .invalidArgument
    ∧ applyOp exD (.transferOp ⟨0, 0, 5, none⟩ "t6") = exD
    ∧ alookup (applyOp exD (.transferOp ⟨0, 0, 5, none⟩ "t6")).idempotency
        ("transfer", "t6") = none :=
  claim6_self_transfer_rejected exD ⟨0, 0, 5, none⟩ "t6" (by decide) (by decide)

/-- C9 counterexample: a schema-valid deposit can also fail with
DuplicateIdempotencyKey, an error kind outside the claimed
NotFound/ValidationError set. -/
theorem claim9_counterexample :
    validOp (.depositOp 0 ⟨999, none⟩ "d1")
    ∧ deposit exB 0 ⟨999, none⟩ "d1" = .error .duplicateIdempotencyKey
    ∧ LedgerError.duplicateIdempotencyKey ≠ LedgerError.notFound := by
  refine ⟨by decide, by decide, by decide⟩

/-- C9 as amended: at the service layer a deposit either succeeds or fails
with NotFound or DuplicateIdempotencyKey (ValidationError arises only in the
schema layer before the service runs). -/
theorem claim9_deposit_outcomes (s : LedgerState) (a : AccountId)
    (p : MoneyMovementRequest) (k : String) :
    (∃ r s1, deposit s a p k = .ok (r, s1))
    ∨ deposit s a p k = .error .notFound
    ∨ deposit s a p k = .error .duplicateIdempotencyKey := by
  cases hd : deposit s a p k with
  | ok rs =>
    obtain ⟨r, s1⟩ := rs
    exact Or.inl ⟨r, s1, rfl⟩
  | error e =>
    rcases deposit_error_elim hd with rfl | rfl
    · exact Or.inr (Or.inl rfl)
    · exact Or.inr (Or.inr rfl)

/-- C10: in every reachable state every account balance equals the sum of the
signed amounts of that account's ledger entries. -/
theorem claim10_balance_is_entry_sum (s : LedgerState) (hs : Reachable s) :
    ∀ a rec, alookup s.accounts a = some rec → rec.balance = entrySum (entriesOf s a) :=
  fun a rec h => (reachable_balInv hs a rec h).2

/-- Witness for C10 on the three-deposit example run. -/
theorem claim10_witness : (600 : Int) = entrySum (entriesOf exD 0) :=
  claim10_balance_is_entry_sum exD reachable_exD 0 ⟨0, "alice", 0, 600⟩ (by decide)

/-- Forward characterization of a freshly executed successful transfer. -/
theorem transfer_exec {s : LedgerState} {p : TransferRequest} {k : String}
    {src dst : AccountRecord}
    (hfresh : alookup s.idempotency ("transfer", k) = none)
    (hne : p.source_account_id ≠ p.dest_account_id)
    (hsrc : alookup s.accounts p.source_account_id = some src)
    (hdst : alookup s.accounts p.dest_account_id = some dst)
    (hbal : ¬ src.balance < p.amount) :
    transfer s p k = .ok
      ((accountToResponse { src with balance := src.balance - p.amount },
        accountToResponse { dst with balance := dst.balance + p.amount }),
       { accounts := aupd (aupd s.accounts p.source_account_id
           { src with balance := src.balance - p.amount }) p.dest_account_id
           { dst with balance := dst.balance + p.amount },
         entries := aupd (aupd s.entries p.source_account_id
           (entriesOf s p.source_account_id ++
             [{ id := s.nextId, ts := s.clock, account_id := p.source_account_id,
                amount := p.amount * -1, type := "DEBIT", ref := p.memo }]))
           p.dest_account_id
           (entriesOf s p.dest_account_id ++
             [{ id := s.nextId + 1, ts := s.clock + 1, account_id := p.dest_account_id,
                amount := p.amount, type := "CREDIT", ref := p.memo }]),
         idempotency := aupd s.idempotency ("transfer", k)
           { request_signature := Signature.xfer "transfer" p.source_account_id
               p.dest_account_id p.amount p.memo,
             response_payload := .pair
               (accountToResponse { src with balance := src.balance - p.amount })
               (accountToResponse { dst with balance := dst.balance + p.amount }) },
         nextId := s.nextId + 1 + 1, clock := s.clock + 1 + 1 }) := by
  simp only [transfer, check_idem_none _ hfresh, if_neg hne, hsrc, hdst, if_neg hbal]
  dsimp only [_record_idempotent, _append_entry, entriesOf]
  rw [alookup_aupd_ne s.entries p.source_account_id p.dest_account_id _
    (fun hh => hne hh.symm)]

/-- C3: a successful freshly-executed transfer debits the source by A,
credits the dest by A, appends exactly one DEBIT entry of -A on the source
and one CREDIT entry of +A on the dest sharing the memo, touches no other
account, and returns the updated projections in order (source, dest). -/
theorem claim3_transfer_postconditions (s : LedgerState) (p : TransferRequest) (k : String)
    (src dst : AccountRecord)
    (hfresh : alookup s.idempotency ("transfer", k) = none)
    (hne : p.source_account_id ≠ p.dest_account_id)
    (hsrc : alookup s.accounts p.source_account_id = some src)
    (hdst : alookup s.accounts p.dest_account_id = some dst)
    (hbal : ¬ src.balance < p.amount) :
    ∃ s1 debit credit,
      transfer s p k = .ok
        ((accountToResponse { src with balance := src.balance - p.amount },
          accountToResponse { dst with balance := dst.balance + p.amount }), s1)
      ∧ (alookup s1.accounts p.source_account_id).map (fun x => x.balance)
          = some (src.balance - p.amount)
      ∧ (alookup s1.accounts p.dest_account_id).map (fun x => x.balance)
          = some (dst.balance + p.amount)
      ∧ entriesOf s1 p.source_account_id = entriesOf s p.source_account_id ++ [debit]
      ∧ entriesOf s1 p.dest_account_id = entriesOf s p.dest_account_id ++ [credit]
      ∧ debit.amount = -p.amount ∧ debit.type = "DEBIT" ∧ debit.ref = p.memo
      ∧ credit.amount = p.amount ∧ credit.type = "CREDIT" ∧ credit.ref = p.memo
      ∧ (∀ b, b ≠ p.source_account_id → b ≠ p.dest_account_id →
          entriesOf s1 b = entriesOf s b ∧ alookup s1.accounts b = alookup s.accounts b) := by
  have hne2 : p.dest_account_id ≠ p.source_account_id := fun hh => hne hh.symm
  refine ⟨_,
    { id := s.nextId, ts := s.clock, account_id := p.source_account_id,
      amount := p.amount * -1, type := "DEBIT", ref := p.memo },
    { id := s.nextId + 1, ts := s.clock + 1, account_id := p.dest_account_id,
      amount := p.amount, type := "CREDIT", ref := p.memo },
    transfer_exec hfresh hne hsrc hdst hbal,
    ?_, ?_, ?_, ?_, mul_neg_one p.amount, rfl, rfl, rfl, rfl, rfl, ?_⟩
  · simp only
    rw [alookup_aupd_ne _ _ _ _ hne, alookup_aupd_self]
    rfl
  · simp only
    rw [alookup_aupd_self]
    rfl
  · simp only [entriesOf]
    rw [alookup_aupd_ne _ _ _ _ hne, alookup_aupd_self]
    rfl
  · simp only [entriesOf]
    rw [alookup_aupd_self]
    rfl
  · intro b hb1 hb2
    constructor
    · simp only [entriesOf]
      rw [alookup_aupd_ne _ _ _ _ hb2, alookup_aupd_ne _ _ _ _ hb1]
    · simp only
      rw [alookup_aupd_ne _ _ _ _ hb2, alookup_aupd_ne _ _ _ _ hb1]

/-- Witness for C3: the transfer of 30 from alice to bob in the example run. -/
theorem claim3_witness :
    ∃ s1 debit credit,
      transfer exT1 ⟨0, 1, 30, some "rent"⟩ "t1" = .ok
        ((accountToResponse ⟨0, "alice", 0, 70⟩, accountToResponse ⟨1, "bob", 1, 30⟩), s1)
      ∧ entriesOf s1 0 = entriesOf exT1 0 ++ [debit]
      ∧ entriesOf s1 1 = entriesOf exT1 1 ++ [credit]
      ∧ debit.amount = -30 ∧ credit.amount = 30 := by
  obtain ⟨s1, d, c, h1, h2, h3, h4, h5, h6, h7, h8, h9, h10, h11, h12⟩ :=
    claim3_transfer_postconditions exT1 ⟨0, 1, 30, some "rent"⟩ "t1"
      ⟨0, "alice", 0, 100⟩ ⟨1, "bob", 1, 0⟩
      (by decide) (by decide) (by decide) (by decide) (by decide)
  exact ⟨s1, d, c, h1, h4, h5, h6, h9⟩

/-- Any Python slice of a list is a sublist of it. -/
theorem pySlice_sublist {α : Type} (l : List α) (a : Nat) (b : Int) :
    List.Sublist (pySlice l a b) l := by
  unfold pySlice
  exact (List.drop_sublist _ _).trans (List.take_sublist _ _)

/-- Every page returned by get_statement is ordered newest-first. -/
theorem get_statement_items_sorted {s : LedgerState} {a : AccountId} {limit : Int}
    {cursor : Cursor} {resp : StatementResponse}
    (h : get_statement s a limit cursor = .ok resp) :
    resp.items.Pairwise (fun x y => y.ts ≤ x.ts) := by
  have hpw : (sortTsDesc (entriesOf s a)).Pairwise (fun x y => y.ts ≤ x.ts) :=
    sortTsDesc_pairwise _
  simp only [get_statement] at h
  split at h
  · simp at h
  · rename_i acc hacc
    split at h
    · simp at h
    · rename_i start hstart
      split at h
      · split at h
        · simp at h
        · rename_i last hlast
          simp only [Except.ok.injEq] at h
          subst h
          exact List.pairwise_map.mpr (List.Pairwise.sublist (pySlice_sublist _ _ _) hpw)
      · simp only [Except.ok.injEq] at h
        subst h
        exact List.pairwise_map.mpr (List.Pairwise.sublist (pySlice_sublist _ _ _) hpw)

/-- C7: an unparseable cursor is rejected with InvalidArgument, a cursor
matching no entry restarts from the beginning, a matching cursor resumes just
after the first entry with that timestamp, pages are newest-first, and the
spec's 100/200/300 example paginates as [300, 200] with cursor the timestamp
of the 200 entry, then [100] with no further cursor. -/
theorem claim7_statement_pagination :
    (∀ s (a : AccountId) (acc : AccountRecord) (limit : Int),
        alookup s.accounts a = some acc →
        get_statement s a limit .invalid = .error .invalidArgument)
    ∧ (∀ s (a : AccountId) (limit : Int) (t : Timestamp),
        firstTsIndex t (sortTsDesc (entriesOf s a)) = none →
        get_statement s a limit (.ts t) = get_statement s a limit .none)
    ∧ (∀ s (a : AccountId) (acc : AccountRecord) (limit : Int) (t : Timestamp) (i : Nat),
        alookup s.accounts a = some acc → 1 ≤ limit →
        firstTsIndex t (sortTsDesc (entriesOf s a)) = some i →
        ∃ resp, get_statement s a limit (.ts t) = .ok resp ∧
          resp.items = (((sortTsDesc (entriesOf s a)).drop (i + 1)).take limit.toNat).map
            entryToResponse)
    ∧ (∀ s (a : AccountId) (limit : Int) (cursor : Cursor) (resp : StatementResponse),
        get_statement s a limit cursor = .ok resp →
        resp.items.Pairwise (fun x y => y.ts ≤ x.ts))
    ∧ (get_statement exD 0 2 .none = .ok
        { items := [⟨3, 3, 0, 300, "CREDIT", none⟩, ⟨2, 2, 0, 200, "CREDIT", none⟩],
          next_cursor := some 2 }
      ∧ (entriesOf exD 0).filter (fun e => e.amount == 200)
          = [⟨2, 2, 0, 200, "CREDIT", none⟩]
      ∧ get_statement exD 0 2 (.ts 2) = .ok
        { items := [⟨1, 1, 0, 100, "CREDIT", none⟩], next_cursor := none }) := by
  refine ⟨?_, ?_, ?_, ?_, by decide, by decide, by decide⟩
  · intro s a acc limit hacc
    simp [get_statement, hacc, cursorStartIndex]
  · intro s a limit t hf
    simp only [get_statement, cursorStartIndex, hf]
  · intro s a acc limit t i hacc hlim hf
    have hstart : cursorStartIndex (sortTsDesc (entriesOf s a)) (.ts t) = .ok (i + 1) := by
      simp [cursorStartIndex, hf]
    obtain ⟨resp, h1, h2, _⟩ := get_statement_ok hacc hstart hlim
    exact ⟨resp, h1, h2⟩
  · intro s a limit cursor resp h
    exact get_statement_items_sorted h

/-- Witness for C7 instantiating the hypothesis-bearing clauses. -/
theorem claim7_witness :
    get_statement exD 0 7 .invalid = .error .invalidArgument
    ∧ (∃ resp, get_statement exD 0 7 (.ts 3) = .ok resp ∧
        resp.items = (((sortTsDesc (entriesOf exD 0)).drop 1).take 7).map entryToResponse) := by
  refine ⟨claim7_statement_pagination.1 exD 0 ⟨0, "alice", 0, 600⟩ 7 (by decide), ?_⟩
  obtain ⟨resp, h1, h2⟩ := claim7_statement_pagination.2.2.1 exD 0 ⟨0, "alice", 0, 600⟩
    7 3 0 (by decide) (by decide) (by decide)
  exact ⟨resp, h1, h2⟩

/-- C8 counterexample: the routing layer does not constrain the limit, and
limit 0 on an account with entries makes get_statement crash on
slice_entries[-1] (an uncaught IndexError) instead of returning a page. -/
theorem claim8_counterexample :
    (alookup exD.accounts 0).isSome = true
    ∧ get_statement exD 0 0 Cursor.none = .error .indexError := by
  refine ⟨by decide, by decide⟩

/-- C8 as amended: for every limit of at least 1 (and any parsed cursor
position) get_statement succeeds with at most limit entries, and next_cursor
is the timestamp of the last returned entry exactly when entries remain
beyond the page, and null otherwise. -/
theorem claim8_page_size_and_next_cursor (s : LedgerState) (a : AccountId)
    (acc : AccountRecord) (limit : Int) (cursor : Cursor) (start : Nat)
    (hacc : alookup s.accounts a = some acc)
    (hstart : cursorStartIndex (sortTsDesc (entriesOf s a)) cursor = .ok start)
    (hlim : 1 ≤ limit) :
    ∃ resp, get_statement s a limit cursor = .ok resp ∧
      (resp.items.length : Int) ≤ limit ∧
      ((start : Int) + (resp.items.length : Int) <
          ((sortTsDesc (entriesOf s a)).length : Int) →
        ∃ last, resp.items.getLast? = some last ∧ resp.next_cursor = some last.ts) ∧
      (((sortTsDesc (entriesOf s a)).length : Int) ≤
          (start : Int) + (resp.items.length : Int) →
        resp.next_cursor = Option.none) := by
  obtain ⟨resp, h1, _, h3, h4, h5⟩ := get_statement_ok hacc hstart hlim
  exact ⟨resp, h1, h3, h4, h5⟩

/-- Witness for the amended C8 on the example run. -/
theorem claim8_witness :
    ∃ resp, get_statement exD 0 2 Cursor.none = .ok resp ∧
      (resp.items.length : Int) ≤ 2 ∧
      (((0 : Nat) : Int) + (resp.items.length : Int) <
          ((sortTsDesc (entriesOf exD 0)).length : Int) →
        ∃ last, resp.items.getLast? = some last ∧ resp.next_cursor = some last.ts) ∧
      (((sortTsDesc (entriesOf exD 0)).length : Int) ≤
          ((0 : Nat) : Int) + (resp.items.length : Int) →
        resp.next_cursor = Option.none) :=
  claim8_page_size_and_next_cursor exD 0 ⟨0, "alice", 0, 600⟩ 2 Cursor.none 0
    (by decide) (by decide) (by decide)

end MiniLedger
